import Mathlib

/-!
Verification of the fluxer reconciliation engine (kloudyuk/fluxer).

The Go source is shallowly embedded: strings are Lean `String`s manipulated
through executable models of the Go standard-library helpers the controller
uses (`strings.Split`, `strings.Join`, `strings.Contains`,
`strings.TrimPrefix`, `strings.NewReplacer`, `path.Dir`, `path.Base`,
`net/url` host extraction), the Kubernetes client is a pure association-list
store, and each reconciliation handler from
`internal/controller/fluxapp_controller.go` /
`internal/controller/fluxapp_resource_manager.go` becomes a pure function
from (parent, cluster) to (result, parent, cluster, trace of store
operations).
-/

namespace Fluxer

/-! ### Go string primitives, modelled on `List Char`

All functions are structural recursions so that concrete instances reduce
inside the kernel (`decide`). -/

/-- Does `pat` occur at the head of `l`? (model of a prefix test at one
position, used by the scan loops below). -/
def chStarts : List Char → List Char → Bool
  | _, [] => true
  | [], _ :: _ => false
  | a :: as, b :: bs => a = b && chStarts as bs

/-- Model of Go `strings.Contains`: does `pat` occur anywhere in `l`?
Scans every suffix. -/
def chContains : List Char → List Char → Bool
  | [], pat => pat.isEmpty
  | h :: t, pat => chStarts (h :: t) pat || chContains t pat

/-- Suffix test: does `l` end with `pat`?  Walks down `l` until the lengths
agree, then compares. -/
def chEnds : List Char → List Char → Bool
  | hay, pat =>
    if hay.length = pat.length then hay = pat
    else
      match hay with
      | [] => false
      | _ :: t => chEnds t pat

/-- Model of Go `strings.Split` for a non-empty separator: fuel-indexed so
the recursion is structural (the fuel is always instantiated with the
length of the input, which is sufficient since every step consumes at least
one character). -/
def chSplitAux (sep : List Char) : Nat → List Char → List (List Char)
  | _, [] => [[]]
  | 0, l => [l]
  | Nat.succ fuel, c :: rest =>
    if chStarts (c :: rest) sep then
      [] :: chSplitAux sep fuel ((c :: rest).drop sep.length)
    else
      match chSplitAux sep fuel rest with
      | [] => [c :: rest]
      | g :: gs => (c :: g) :: gs

/-- Go `strings.Split s sep` (non-empty `sep`). -/
def goSplit (s sep : String) : List String :=
  (chSplitAux sep.data s.data.length s.data).map (fun l => String.mk l)

/-- Go `strings.Contains`. -/
def goContains (s sub : String) : Bool :=
  chContains s.data sub.data

/-- Suffix test on strings (used only to state the spec's "host suffix"
rule, which the source does not actually implement). -/
def goEnds (s suffixStr : String) : Bool :=
  chEnds s.data suffixStr.data

/-- Go `strings.HasPrefix`. -/
def goHasPre (s pre : String) : Bool :=
  chStarts s.data pre.data

/-- Go `strings.TrimPrefix`. -/
def goTrim (s pre : String) : String :=
  if goHasPre s pre then String.mk (s.data.drop pre.data.length) else s

/-- Go `strings.Join`. -/
def goJoin (elems : List String) (sep : String) : String :=
  match elems with
  | [] => ""
  | e :: rest => rest.foldl (fun acc x => acc ++ sep ++ x) e

/-- Character translation of Go's `strings.NewReplacer(...)` when every
pattern and replacement is a single byte (Go specialises this to its
`byteReplacer`, which maps each byte independently, first matching pair
wins). -/
def replacerChar (pairs : List (Char × Char)) (c : Char) : Char :=
  match pairs.find? (fun p => p.1 = c) with
  | some p => p.2
  | none => c

/-- Go `strings.NewReplacer(pairs).Replace s` for single-character pairs. -/
def goReplacer (pairs : List (Char × Char)) (s : String) : String :=
  String.mk (s.data.map (replacerChar pairs))

/-! ### Go `path.Dir` / `path.Base` -/

/-- Split a char list on `/` (used by the `path.Clean` model). -/
def chSplitSlash : List Char → List (List Char)
  | [] => [[]]
  | c :: rest =>
    if c = '/' then [] :: chSplitSlash rest
    else
      match chSplitSlash rest with
      | [] => [[c]]
      | g :: gs => (c :: g) :: gs

/-- Element processing of Go `path.Clean`: drop empty and `.` elements,
let `..` pop the stack (except past the root, or past leading `..`s in a
relative path).  The accumulated stack is kept reversed. -/
def cleanElems (rooted : Bool) : List (List Char) → List (List Char) → List (List Char)
  | stack, [] => stack
  | stack, e :: rest =>
    if e = [] ∨ e = ['.'] then cleanElems rooted stack rest
    else if e = ['.', '.'] then
      match stack with
      | top :: s2 =>
        if top = ['.', '.'] then cleanElems rooted (e :: top :: s2) rest
        else cleanElems rooted s2 rest
      | [] => if rooted then cleanElems rooted [] rest else cleanElems rooted [e] rest
    else cleanElems rooted (e :: stack) rest

/-- Go `path.Clean`. -/
def pathClean (p : String) : String :=
  if p = "" then "."
  else
    let rooted := goHasPre p "/"
    let elems := (cleanElems rooted [] (chSplitSlash p.data)).reverse
    let out := goJoin (elems.map (fun l => String.mk l)) "/"
    let out := if rooted then "/" ++ out else out
    if out = "" then "." else out

/-- Characters of `p` up to and including the last `/` (Go `path.Split`
keeps the trailing slash on the directory part). -/
def upToLastSlash : List Char → List Char
  | [] => []
  | c :: rest =>
    let r := upToLastSlash rest
    if r.isEmpty then (if c = '/' then ['/'] else []) else c :: r

/-- Go `path.Dir`: everything before the final slash, cleaned. -/
def pathDir (p : String) : String :=
  pathClean (String.mk (upToLastSlash p.data))

/-- Go `path.Base`: the last element of the path, after dropping trailing
slashes; `"."` for the empty path and `"/"` for an all-slash path. -/
def pathBase (p : String) : String :=
  if p = "" then "."
  else
    let l := (p.data.reverse.dropWhile (fun c => c = '/')).reverse
    let b := (l.reverse.takeWhile (fun c => c ≠ '/')).reverse
    if b.isEmpty then "/" else String.mk b

/-! ### `net/url` host extraction

`providerFromURL` only looks at `url.Parse(s).Host`.  For the URL shapes
this controller handles (`scheme://host/path`, no userinfo, port, query or
fragment) the host is the text between the first `"://"` and the next `/`.
`url.Parse` failures (illegal control characters and the like) are outside
the modelled input space, so the model is total. -/

/-- Before/after split at the first occurrence of `sep`, if any. -/
def chAfterFirst (sep : List Char) : List Char → Option (List Char × List Char)
  | [] => none
  | c :: rest =>
    if chStarts (c :: rest) sep then
      some ([], (c :: rest).drop sep.length)
    else
      match chAfterFirst sep rest with
      | none => none
      | some (b, a) => some (c :: b, a)

/-- Host component of a URL, as `url.Parse` reports it for
`scheme://host/...` inputs; `""` when there is no `"://"` (a URL without an
authority has an empty `Host`). -/
def hostOf (s : String) : String :=
  match chAfterFirst "://".data s.data with
  | none => ""
  | some (_, a) => String.mk (a.takeWhile (fun c => c ≠ '/'))

/-- `providerFromURL` from `fluxapp_controller.go`: registry provider tag
from the parsed host, by `strings.Contains` checks in order. -/
def providerFromURL (s : String) : String :=
  let host := hostOf s
  if goContains host "amazonaws.com" then "aws"
  else if goContains host "azurecr.io" then "azure"
  else if goContains host "gcr.io" then "gcp"
  else "generic"

/-- Provider rule as the spec states it ("derived from the URL's host
suffix"); written from the claim's words only, to be compared with
`providerFromURL`. -/
def providerBySuffixClaim (host : String) : String :=
  if goEnds host "amazonaws.com" then "aws"
  else if goEnds host "azurecr.io" then "azure"
  else if goEnds host "gcr.io" then "gcp"
  else "generic"

/-! ### Data model: the FluxApp parent (`api/v1/fluxapp_types.go`)

Conditions follow `metav1.Condition` restricted to the fields the
controller reads and writes (type, status, reason, message);
`lastTransitionTime` and `observedGeneration` play no role in any claim. -/

/-- One `metav1.Condition` on a resource's status. -/
structure GoCondition where
  ctype : String
  cstatus : String
  reason : String
  message : String
deriving DecidableEq

/-- `Chart` from the FluxApp spec. -/
structure ChartSpec where
  repository : String
  version : String
deriving DecidableEq

/-- `FluxAppSpec`. -/
structure FluxAppSpec where
  chart : ChartSpec
  targetNamespace : String
deriving DecidableEq

/-- `ChartStatus` from the FluxApp status. -/
structure ChartStatus where
  repository : String
  name : String
  version : String
deriving DecidableEq

/-- `FluxAppStatus`. -/
structure FluxAppStatus where
  chart : ChartStatus
  conditions : List GoCondition
deriving DecidableEq

/-- The FluxApp parent object: object metadata (name, namespace, deletion
timestamp, finalizers) plus spec and status.  The deletion timestamp is
abstracted to whether it is set (`!DeletionTimestamp.IsZero()`). -/
structure FluxApp where
  name : String
  ns : String
  deletionTimestampSet : Bool
  finalizers : List String
  spec : FluxAppSpec
  status : FluxAppStatus
deriving DecidableEq

/-- The finalizer constant `apps.kloudy.uk/finalizer`. -/
def finalizerName : String := "apps.kloudy.uk/finalizer"

/-! ### NamingPolicy (`fluxapp_resource_manager.go`) -/

/-- `ResourceManager.ImageRepositoryName`. -/
def ImageRepositoryName (app : FluxApp) : String :=
  goJoin [app.name, "chart"] "-"

/-- `ResourceManager.ImagePolicyName`. -/
def ImagePolicyName (app : FluxApp) : String :=
  ImageRepositoryName app

/-- `ResourceManager.HelmRepositoryName`. -/
def HelmRepositoryName (app : FluxApp) : String :=
  goReplacer [('.', '-'), ('/', '-')] (goTrim app.status.chart.repository "oci://")

/-- `ResourceManager.HelmReleaseName`. -/
def HelmReleaseName (app : FluxApp) : String :=
  app.name

/-! ### ManagedResourceStore, generic form (`fluxapp_resource_manager.go`)

`ResourceManager.Get`/`Update` are modelled over a generic child object
carrying the pieces the manager touches: kind, name, namespace, the
controller owner reference, and an opaque payload standing for the typed
spec/status.  The external store is an association list keyed by
(kind, namespace, name); transient store failures are outside the model
(only NotFound, which `Get` handles explicitly, is represented, as the
key being absent). -/

/-- A child object as the generic store sees it. -/
structure Obj where
  kind : String
  name : String
  ns : String
  controllerOwner : Option String
  payload : String
deriving DecidableEq

/-- The zero value of a child object of the given kind. -/
def Obj.zero (kind : String) : Obj :=
  { kind := kind, name := "", ns := "", controllerOwner := none, payload := "" }

/-- The `managedResource` record: the fetched-or-initialised object plus
the optional patch baseline (`client.MergeFrom(o.DeepCopy())` is recorded
as the object's value at fetch time). -/
structure MRes (α : Type) where
  object : α
  patch : Option α
deriving DecidableEq

/-- External store contents, keyed by (kind, namespace, name). -/
abbrev Store := List ((String × String × String) × Obj)

/-- Store lookup. -/
def storeGet (st : Store) (k : String × String × String) : Option Obj :=
  match st.find? (fun p => p.1 = k) with
  | some p => some p.2
  | none => none

/-- Child name selection inside `ResourceManager.Get`'s kind switch;
`none` is the `default:` branch. -/
def childName (app : FluxApp) (kind : String) : Option String :=
  if kind = "ImageRepository" then some (ImageRepositoryName app)
  else if kind = "ImagePolicy" then some (ImagePolicyName app)
  else if kind = "HelmRepository" then some (HelmRepositoryName app)
  else if kind = "HelmRelease" then some (HelmReleaseName app)
  else none

/-- One store operation, recorded in traces so the theorems can talk about
which lookups and commits an invocation performs. -/
inductive StoreOp where
  | lookup (kind name : String)
  | create (kind name : String)
  | patchCommit (kind name : String)
  | appUpdate
  | appStatusPatch
deriving DecidableEq

/-- The freshly initialised record `Get` builds on NotFound: the zero
object of the kind, stamped with the derived name, the parent's namespace
and the controller reference (`SetControllerReference` records the parent
as controlling owner; it cannot fail on a fresh object, which has no
previous controller), and no patch baseline. -/
def freshMR (app : FluxApp) (kind nm : String) : MRes Obj :=
  { object := { Obj.zero kind with
                name := nm, ns := app.ns, controllerOwner := some app.name },
    patch := none }

/-- Does a store operation refer to a child of the given kind?
(`appUpdate`/`appStatusPatch` touch the parent, not a child.) -/
def opKindIs (k : String) : StoreOp → Bool
  | .lookup k2 _ => k2 = k
  | .create k2 _ => k2 = k
  | .patchCommit k2 _ => k2 = k
  | .appUpdate => false
  | .appStatusPatch => false

/-- `ResourceManager.Get`: pick the kind-specific empty object and derived
name (`default:` kind is rejected before any store access); on NotFound,
return the stamped fresh record; on a hit, record the fetched object
itself as the patch baseline. -/
def RMGet (st : Store) (app : FluxApp) (kind : String) :
    Except String (MRes Obj) × List StoreOp :=
  match childName app kind with
  | none => (.error ("unsupported kind: " ++ kind), [])
  | some nm =>
    match storeGet st (kind, app.ns, nm) with
    | some o => (.ok { object := o, patch := some o }, [.lookup kind nm])
    | none => (.ok (freshMR app kind nm), [.lookup kind nm])

/-- The write a commit performs: `Create` when no baseline was recorded,
else `Patch` against the recorded baseline. -/
inductive StoreWrite where
  | createObj (o : Obj)
  | patchObj (o : Obj) (baseline : Obj)
deriving DecidableEq

/-- `ResourceManager.Update`. -/
def RMUpdate (mr : MRes Obj) : StoreWrite :=
  match mr.patch with
  | none => .createObj mr.object
  | some b => .patchObj mr.object b

/-! ### Typed child resources (the pipeline view)

The reconciliation handlers are modelled over typed children carrying
exactly the fields the controller reads or writes.  Each child also
carries the controller owner reference so the pipeline-level model agrees
with the generic store model above. -/

/-- `imagev1.ImageRepositorySpec`, fields set by the controller. -/
structure ImageRepositorySpec where
  image : String
  intervalMinutes : Nat
  provider : String
deriving DecidableEq

/-- A Flux `ImageRepository` object. -/
structure ImageRepository where
  name : String
  ns : String
  owner : Option String
  spec : ImageRepositorySpec
deriving DecidableEq

/-- Zero value of `ImageRepository`. -/
def ImageRepository.empty : ImageRepository :=
  { name := "", ns := "", owner := none,
    spec := { image := "", intervalMinutes := 0, provider := "" } }

/-- `imagev1.ImagePolicySpec`, fields set by the controller. -/
structure ImagePolicySpec where
  imageRepositoryRefName : String
  imageRepositoryRefNamespace : String
  semverRange : String
deriving DecidableEq

/-- `imagev1.ImagePolicyStatus`, restricted to the one field read. -/
structure ImagePolicyStatus where
  latestImage : String
deriving DecidableEq

/-- A Flux `ImagePolicy` object. -/
structure ImagePolicy where
  name : String
  ns : String
  owner : Option String
  spec : ImagePolicySpec
  status : ImagePolicyStatus
deriving DecidableEq

/-- Zero value of `ImagePolicy`. -/
def ImagePolicy.empty : ImagePolicy :=
  { name := "", ns := "", owner := none,
    spec := { imageRepositoryRefName := "", imageRepositoryRefNamespace := "",
              semverRange := "" },
    status := { latestImage := "" } }

/-- `sourcev1.HelmRepositorySpec`, fields set by the controller. -/
structure HelmRepositorySpec where
  url : String
  htype : String
  provider : String
deriving DecidableEq

/-- A Flux `HelmRepository` object. -/
structure HelmRepository where
  name : String
  ns : String
  owner : Option String
  spec : HelmRepositorySpec
deriving DecidableEq

/-- Zero value of `HelmRepository`. -/
def HelmRepository.empty : HelmRepository :=
  { name := "", ns := "", owner := none,
    spec := { url := "", htype := "", provider := "" } }

/-- `helmv2.HelmReleaseSpec`, fields set by the controller
(`CreateReplace` stands for the `helmv2.CreateReplace` CRD policy). -/
structure HelmReleaseSpec where
  chartName : String
  chartVersion : String
  sourceRefKind : String
  sourceRefName : String
  sourceRefNamespace : String
  intervalMinutes : Nat
  releaseName : String
  targetNamespace : String
  driftDetectionEnabled : Bool
  driftIgnorePaths : List String
  installReplace : Bool
  installCRDs : String
  installCreateNamespace : Bool
  upgradeCRDs : String
deriving DecidableEq

/-- `helmv2.HelmReleaseStatus`, restricted to the conditions read. -/
structure HelmReleaseStatus where
  conditions : List GoCondition
deriving DecidableEq

/-- A Flux `HelmRelease` object. -/
structure HelmRelease where
  name : String
  ns : String
  owner : Option String
  spec : HelmReleaseSpec
  status : HelmReleaseStatus
deriving DecidableEq

/-- Zero value of `HelmRelease`. -/
def HelmRelease.empty : HelmRelease :=
  { name := "", ns := "", owner := none,
    spec := { chartName := "", chartVersion := "", sourceRefKind := "",
              sourceRefName := "", sourceRefNamespace := "",
              intervalMinutes := 0, releaseName := "", targetNamespace := "",
              driftDetectionEnabled := false, driftIgnorePaths := [],
              installReplace := false, installCRDs := "",
              installCreateNamespace := false, upgradeCRDs := "" },
    status := { conditions := [] } }

/-! ### Condition handling (`fluxcd/pkg/runtime/conditions`)

`conditions.SetMirror(app, Ready, obj, WithFallbackValue(false,
Progressing, msg))` copies `obj`'s `Ready` condition onto the app, or sets
the fallback condition when `obj` has none.  `Set` replaces the condition
of the same type in place, appending when absent (its sorting of the slice
is irrelevant to the claims and not modelled). -/

/-- Look up a condition by type. -/
def findCondition (conds : List GoCondition) (t : String) : Option GoCondition :=
  conds.find? (fun c => c.ctype = t)

/-- `conditions.Set`: replace the same-typed condition, else append. -/
def setCondition : List GoCondition → GoCondition → List GoCondition
  | [], c => [c]
  | x :: xs, c => if x.ctype = c.ctype then c :: xs else x :: setCondition xs c

/-- The fallback `Ready` condition from
`WithFallbackValue(false, meta.ProgressingReason, "HelmRelease is not ready")`. -/
def readyFallback : GoCondition :=
  { ctype := "Ready", cstatus := "False", reason := "Progressing",
    message := "HelmRelease is not ready" }

/-- `conditions.SetMirror` with a fallback value. -/
def setMirror (target src : List GoCondition) (fallback : GoCondition) :
    List GoCondition :=
  match findCondition src "Ready" with
  | some c => setCondition target c
  | none => setCondition target fallback

/-! ### The cluster: association lists keyed by (namespace, name) -/

/-- Lookup in a (namespace, name)-keyed association list. -/
def alookup {α : Type} (l : List ((String × String) × α)) (k : String × String) :
    Option α :=
  match l.find? (fun p => p.1 = k) with
  | some p => some p.2
  | none => none

/-- Write-through into a (namespace, name)-keyed association list. -/
def aset {α : Type} :
    List ((String × String) × α) → String × String → α →
    List ((String × String) × α)
  | [], k, v => [(k, v)]
  | (k2, v2) :: t, k, v =>
    if k2 = k then (k, v) :: t else (k2, v2) :: aset t k v

/-- The external cluster state visible to this controller. -/
structure Cluster where
  imageRepos : List ((String × String) × ImageRepository)
  imagePolicies : List ((String × String) × ImagePolicy)
  helmRepos : List ((String × String) × HelmRepository)
  helmReleases : List ((String × String) × HelmRelease)
deriving DecidableEq

/-- A cluster with no child objects. -/
def Cluster.empty : Cluster :=
  { imageRepos := [], imagePolicies := [], helmRepos := [], helmReleases := [] }

/-! ### `ResourceManager.Get`/`Update`, specialised per kind

These instantiate the generic `RMGet`/`RMUpdate` logic at the typed
children used by the handlers: derive the child name, fall back to a fresh
object stamped with name, namespace and the controller owner reference on
NotFound, record the fetched object as patch baseline on a hit, and let
`Update` create exactly when no baseline exists. -/

/-- `Get` for `ImageRepository`. -/
def getImageRepositoryMR (app : FluxApp) (cl : Cluster) :
    MRes ImageRepository × StoreOp :=
  let nm := ImageRepositoryName app
  match alookup cl.imageRepos (app.ns, nm) with
  | some o => ({ object := o, patch := some o }, .lookup "ImageRepository" nm)
  | none =>
    let fresh :=
      { ImageRepository.empty with
        name := nm, ns := app.ns, owner := some app.name }
    ({ object := fresh, patch := none }, .lookup "ImageRepository" nm)

/-- `Update` for `ImageRepository`. -/
def updateImageRepositoryMR (cl : Cluster) (mr : MRes ImageRepository) :
    Cluster × StoreOp :=
  let stored := aset cl.imageRepos (mr.object.ns, mr.object.name) mr.object
  let cl2 := { cl with imageRepos := stored }
  match mr.patch with
  | none => (cl2, .create "ImageRepository" mr.object.name)
  | some _ => (cl2, .patchCommit "ImageRepository" mr.object.name)

/-- `Get` for `ImagePolicy`. -/
def getImagePolicyMR (app : FluxApp) (cl : Cluster) :
    MRes ImagePolicy × StoreOp :=
  let nm := ImagePolicyName app
  match alookup cl.imagePolicies (app.ns, nm) with
  | some o => ({ object := o, patch := some o }, .lookup "ImagePolicy" nm)
  | none =>
    let fresh :=
      { ImagePolicy.empty with
        name := nm, ns := app.ns, owner := some app.name }
    ({ object := fresh, patch := none }, .lookup "ImagePolicy" nm)

/-- `Update` for `ImagePolicy`. -/
def updateImagePolicyMR (cl : Cluster) (mr : MRes ImagePolicy) :
    Cluster × StoreOp :=
  let stored := aset cl.imagePolicies (mr.object.ns, mr.object.name) mr.object
  let cl2 := { cl with imagePolicies := stored }
  match mr.patch with
  | none => (cl2, .create "ImagePolicy" mr.object.name)
  | some _ => (cl2, .patchCommit "ImagePolicy" mr.object.name)

/-- `Get` for `HelmRepository`. -/
def getHelmRepositoryMR (app : FluxApp) (cl : Cluster) :
    MRes HelmRepository × StoreOp :=
  let nm := HelmRepositoryName app
  match alookup cl.helmRepos (app.ns, nm) with
  | some o => ({ object := o, patch := some o }, .lookup "HelmRepository" nm)
  | none =>
    let fresh :=
      { HelmRepository.empty with
        name := nm, ns := app.ns, owner := some app.name }
    ({ object := fresh, patch := none }, .lookup "HelmRepository" nm)

/-- `Update` for `HelmRepository`. -/
def updateHelmRepositoryMR (cl : Cluster) (mr : MRes HelmRepository) :
    Cluster × StoreOp :=
  let stored := aset cl.helmRepos (mr.object.ns, mr.object.name) mr.object
  let cl2 := { cl with helmRepos := stored }
  match mr.patch with
  | none => (cl2, .create "HelmRepository" mr.object.name)
  | some _ => (cl2, .patchCommit "HelmRepository" mr.object.name)

/-- `Get` for `HelmRelease`. -/
def getHelmReleaseMR (app : FluxApp) (cl : Cluster) :
    MRes HelmRelease × StoreOp :=
  let nm := HelmReleaseName app
  match alookup cl.helmReleases (app.ns, nm) with
  | some o => ({ object := o, patch := some o }, .lookup "HelmRelease" nm)
  | none =>
    let fresh :=
      { HelmRelease.empty with
        name := nm, ns := app.ns, owner := some app.name }
    ({ object := fresh, patch := none }, .lookup "HelmRelease" nm)

/-- `Update` for `HelmRelease`. -/
def updateHelmReleaseMR (cl : Cluster) (mr : MRes HelmRelease) :
    Cluster × StoreOp :=
  let stored := aset cl.helmReleases (mr.object.ns, mr.object.name) mr.object
  let cl2 := { cl with helmReleases := stored }
  match mr.patch with
  | none => (cl2, .create "HelmRelease" mr.object.name)
  | some _ => (cl2, .patchCommit "HelmRelease" mr.object.name)

/-! ### The four handlers (`fluxapp_controller.go`) -/

/-- Errors an invocation can surface.  `requeue` is the sentinel
`errRequeue`; the other constructors are the `fmt.Errorf` hard errors. -/
inductive RErr where
  | requeue
  | invalidChartURL (url : String)
  | invalidImageRef (ref : String)
deriving DecidableEq

/-- The parent-status update the image stage applies: resolved repository
is `"oci://" + path.Dir(image)` and resolved name is `path.Base(image)`. -/
def setResolvedRepo (app : FluxApp) (image : String) : FluxApp :=
  { app with
    status.chart.repository := "oci://" ++ pathDir image,
    status.chart.name := pathBase image }

/-- `handleImageRepository`: fetch-or-init the image repository child,
derive its spec from the parent's chart URL (`strings.Split` on `"://"`
must give exactly two parts), then set the parent's resolved repository
and name from the just-built spec image (via `path.Dir` / `path.Base`)
whenever it is non-empty, and commit. -/
def handleImageRepository (app : FluxApp) (cl : Cluster) :
    Except RErr (FluxApp × Cluster) × List StoreOp :=
  let mr := (getImageRepositoryMR app cl).1
  let op0 := (getImageRepositoryMR app cl).2
  let provider := providerFromURL app.spec.chart.repository
  match goSplit app.spec.chart.repository "://" with
  | [_, image] =>
    let obj :=
      { mr.object with
        spec := { image := image, intervalMinutes := 1, provider := provider } }
    let app2 :=
      if obj.spec.image ≠ "" then setResolvedRepo app obj.spec.image else app
    let upd := updateImageRepositoryMR cl { mr with object := obj }
    (.ok (app2, upd.1), [op0, upd.2])
  | _ => (.error (.invalidChartURL app.spec.chart.repository), [op0])

/-- `handleImagePolicy`: fetch-or-init the image policy child, point its
spec at the image repository with the parent's semver range, then, when
the fetched child reports a `LatestImage`, require it to split on `":"`
into exactly two parts and store the tag as the parent's resolved
version (a different part count is a hard error raised before the
commit), and commit. -/
def handleImagePolicy (app : FluxApp) (cl : Cluster) :
    Except RErr (FluxApp × Cluster) × List StoreOp :=
  let mr := (getImagePolicyMR app cl).1
  let op0 := (getImagePolicyMR app cl).2
  let spec : ImagePolicySpec :=
    { imageRepositoryRefName := ImagePolicyName app,
      imageRepositoryRefNamespace := app.ns,
      semverRange := app.spec.chart.version }
  let obj := { mr.object with spec := spec }
  if obj.status.latestImage = "" then
    let upd := updateImagePolicyMR cl { mr with object := obj }
    (.ok (app, upd.1), [op0, upd.2])
  else
    match goSplit obj.status.latestImage ":" with
    | [_, v] =>
      let app2 := { app with status.chart.version := v }
      let upd := updateImagePolicyMR cl { mr with object := obj }
      (.ok (app2, upd.1), [op0, upd.2])
    | _ => (.error (.invalidImageRef obj.status.latestImage), [op0])

/-- `handleHelmRepository`: fetch-or-init the helm repository child and
commit a spec built from the parent's resolved repository status (there is
no emptiness gate in this handler). -/
def handleHelmRepository (app : FluxApp) (cl : Cluster) :
    Except RErr (FluxApp × Cluster) × List StoreOp :=
  let mr := (getHelmRepositoryMR app cl).1
  let op0 := (getHelmRepositoryMR app cl).2
  let provider := providerFromURL app.status.chart.repository
  let spec : HelmRepositorySpec :=
    { url := app.status.chart.repository, htype := "oci", provider := provider }
  let obj := { mr.object with spec := spec }
  let upd := updateHelmRepositoryMR cl { mr with object := obj }
  (.ok (app, upd.1), [op0, upd.2])

/-- `handleHelmRelease`: return the requeue sentinel while resolved
repository, name or version is still empty; otherwise fetch-or-init the
release, build its full spec, mirror the release's `Ready` condition onto
the parent (fallback `False`/`Progressing`), and commit. -/
def handleHelmRelease (app : FluxApp) (cl : Cluster) :
    Except RErr (FluxApp × Cluster) × List StoreOp :=
  if app.status.chart.repository = "" ∨ app.status.chart.name = "" ∨
      app.status.chart.version = "" then
    (.error .requeue, [])
  else
    let mr := (getHelmReleaseMR app cl).1
    let op0 := (getHelmReleaseMR app cl).2
    let targetNS :=
      if app.spec.targetNamespace = "" then app.ns else app.spec.targetNamespace
    let spec : HelmReleaseSpec :=
      { chartName := app.status.chart.name,
        chartVersion := app.status.chart.version,
        sourceRefKind := "HelmRepository",
        sourceRefName := HelmRepositoryName app,
        sourceRefNamespace := app.ns,
        intervalMinutes := 1,
        releaseName := app.name,
        targetNamespace := targetNS,
        driftDetectionEnabled := true,
        driftIgnorePaths := ["/spec/replicas"],
        installReplace := true,
        installCRDs := "CreateReplace",
        installCreateNamespace := true,
        upgradeCRDs := "CreateReplace" }
    let obj := { mr.object with spec := spec }
    let app2 :=
      { app with
        status.conditions :=
          setMirror app.status.conditions obj.status.conditions readyFallback }
    let upd := updateHelmReleaseMR cl { mr with object := obj }
    (.ok (app2, upd.1), [op0, upd.2])

/-! ### `Reconcile` -/

/-- What one invocation returns and leaves behind: the `ctrl.Result`
requeue flag, the returned error, the in-memory parent (persisted by the
deferred status patch), the cluster, and the trace of store operations. -/
structure Outcome where
  requeue : Bool
  err : Option RErr
  app : FluxApp
  cluster : Cluster
  trace : List StoreOp
deriving DecidableEq

/-- The handler chain as `Reconcile` runs it: strictly in order, stopping
at the first error; the parent and cluster state reached so far survive an
error (earlier commits are not rolled back and the deferred status patch
still persists the parent's in-memory status). -/
def runChain (app : FluxApp) (cl : Cluster) :
    Option RErr × FluxApp × Cluster × List StoreOp :=
  match handleImageRepository app cl with
  | (.error e, t) => (some e, app, cl, t)
  | (.ok (a1, c1), t1) =>
    match handleImagePolicy a1 c1 with
    | (.error e, t) => (some e, a1, c1, t1 ++ t)
    | (.ok (a2, c2), t2) =>
      match handleHelmRepository a2 c2 with
      | (.error e, t) => (some e, a2, c2, t1 ++ t2 ++ t)
      | (.ok (a3, c3), t3) =>
        match handleHelmRelease a3 c3 with
        | (.error e, t) => (some e, a3, c3, t1 ++ t2 ++ t3 ++ t)
        | (.ok (a4, c4), t4) => (none, a4, c4, t1 ++ t2 ++ t3 ++ t4)

/-- `Reconcile`: deletion branch (remove the finalizer and persist, no
chain, no status patch), finalizer registration (persisted through its own
`r.Update` commit), then the chain with the deferred status patch; the
sentinel `errRequeue` becomes `{Requeue: true}` with a nil error, every
other error is surfaced. -/
def Reconcile (app0 : FluxApp) (cl0 : Cluster) : Outcome :=
  if app0.deletionTimestampSet then
    if finalizerName ∈ app0.finalizers then
      let app1 :=
        { app0 with finalizers := app0.finalizers.filter (fun f => f ≠ finalizerName) }
      { requeue := false, err := none, app := app1, cluster := cl0,
        trace := [.appUpdate] }
    else
      { requeue := false, err := none, app := app0, cluster := cl0, trace := [] }
  else
    let app1 :=
      if finalizerName ∈ app0.finalizers then app0
      else { app0 with finalizers := app0.finalizers ++ [finalizerName] }
    let t1 : List StoreOp :=
      if finalizerName ∈ app0.finalizers then [] else [.appUpdate]
    match runChain app1 cl0 with
    | (some RErr.requeue, a, c, t) =>
      { requeue := true, err := none, app := a, cluster := c,
        trace := t1 ++ t ++ [.appStatusPatch] }
    | (some e, a, c, t) =>
      { requeue := false, err := some e, app := a, cluster := c,
        trace := t1 ++ t ++ [.appStatusPatch] }
    | (none, a, c, t) =>
      { requeue := false, err := none, app := a, cluster := c,
        trace := t1 ++ t ++ [.appStatusPatch] }

/-! ### Spec-side companion definitions

These follow the claims' words (not the source) and are compared against
the source-derived definitions above. -/

/-- Sanitisation as C7 words it: remove the `oci://` prefix is done by
`goTrim`; here, replace every `.` and `/` by `-`. -/
def sanitizeClaim (s : String) : String :=
  String.mk (s.data.map (fun c => if c = '.' ∨ c = '/' then '-' else c))

/-! ### Concrete fixtures for witnesses and counterexamples -/

/-- A parent whose finalizer is already registered, chart URL
`oci://ghcr.io/org/app`, nothing resolved yet. -/
def appFin : FluxApp :=
  { name := "demo", ns := "default", deletionTimestampSet := false,
    finalizers := [finalizerName],
    spec := { chart := { repository := "oci://ghcr.io/org/app", version := "*" },
              targetNamespace := "" },
    status := { chart := { repository := "", name := "", version := "" },
                conditions := [] } }

/-- The same parent before its finalizer is registered. -/
def appNoFin : FluxApp :=
  { appFin with finalizers := [] }

/-- The same parent with repository, name and version already resolved. -/
def appResolved : FluxApp :=
  { appFin with
    status := { chart := { repository := "oci://ghcr.io/org", name := "app",
                           version := "1.2.3" },
                conditions := [] } }

/-- A second parent agreeing with `appFin` on name and resolved
repository but differing elsewhere (used to witness naming determinism);
here the resolved repository is also fixed to a non-empty value on both. -/
def c7AppA : FluxApp :=
  { appFin with
    status := { chart := { repository := "oci://ghcr.io/org", name := "app",
                           version := "" },
                conditions := [] } }

/-- See `c7AppA`: same name and resolved repository, different namespace,
spec and remaining status. -/
def c7AppB : FluxApp :=
  { name := "demo", ns := "other", deletionTimestampSet := true,
    finalizers := [],
    spec := { chart := { repository := "oci://example.com/x", version := "2" },
              targetNamespace := "elsewhere" },
    status := { chart := { repository := "oci://ghcr.io/org", name := "y",
                           version := "9" },
                conditions := [] } }

/-- An image policy whose observed `LatestImage` has no `:` separator. -/
def badPolicy : ImagePolicy :=
  { ImagePolicy.empty with
    name := "demo-chart", ns := "default", owner := some "demo",
    status := { latestImage := "badref" } }

/-- A cluster holding only `badPolicy`. -/
def badPolicyCluster : Cluster :=
  { Cluster.empty with imagePolicies := [(("default", "demo-chart"), badPolicy)] }

/-- A generic-store child object fixture. -/
def storedObj : Obj :=
  { kind := "HelmRelease", name := "demo", ns := "default",
    controllerOwner := some "demo", payload := "deployed" }

/-- A generic store holding only `storedObj`. -/
def oneObjStore : Store :=
  [(("HelmRelease", "default", "demo"), storedObj)]

/-! ### Support lemmas -/

/-- A list starts with itself. -/
theorem chStarts_self (l : List Char) : chStarts l l = true := by
  induction l with
  | nil => rfl
  | cons a as ih => simp [chStarts, ih]

/-- A suffix occurrence is in particular an occurrence. -/
theorem chContains_of_chEnds :
    ∀ hay pat : List Char, chEnds hay pat = true → chContains hay pat = true := by
  intro hay
  induction hay with
  | nil =>
    intro pat h
    unfold chEnds at h
    cases pat with
    | nil => rfl
    | cons b bs => simp at h
  | cons a as ih =>
    intro pat h
    unfold chEnds at h
    by_cases hl : as.length + 1 = pat.length
    · simp [hl] at h
      subst h
      simp [chContains, chStarts_self]
    · simp [hl] at h
      simp [chContains, ih pat h]

/-- The single-byte replacer for `.`/`/` is the charwise map C7 names. -/
theorem replacerChar_dot_slash (c : Char) :
    replacerChar [('.', '-'), ('/', '-')] c =
      if c = '.' ∨ c = '/' then '-' else c := by
  unfold replacerChar
  by_cases h1 : c = '.'
  · subst h1; simp [List.find?]
  · by_cases h2 : c = '/'
    · subst h2; simp [List.find?]
    · have d1 : ¬('.' = c) := fun h => h1 h.symm
      have d2 : ¬('/' = c) := fun h => h2 h.symm
      simp [List.find?, d1, d2, h1, h2]

/-! ### Claim C6 — provider inference -/

/-- Claim C6, as stated, is false: `providerFromURL` matches by
`strings.Contains`, not by host suffix.  The host
`amazonaws.com.evil.example` has suffix `example`, so the claim's rule
gives `generic`, but the code answers `aws`. -/
theorem fluxer_c6_counterexample :
    providerFromURL "oci://amazonaws.com.evil.example/app" = "aws" ∧
    providerBySuffixClaim (hostOf "oci://amazonaws.com.evil.example/app") =
      "generic" :=
  ⟨by decide, by decide⟩

/-- Claim C6 (amended): the provider tag is decided by substring
containment on the parsed host, tested in the order aws, azure, gcp: a
host with suffix `amazonaws.com` yields `aws`; suffix `azurecr.io` yields
`azure` provided the host does not also contain `amazonaws.com`; suffix
`gcr.io` yields `gcp` provided the host contains neither `amazonaws.com`
nor `azurecr.io`; a host containing none of the three yields `generic`;
and the four literal example URLs evaluate as the claim lists them. -/
theorem fluxer_c6_provider_contains (s : String) :
    (goEnds (hostOf s) "amazonaws.com" = true → providerFromURL s = "aws") ∧
    (goEnds (hostOf s) "azurecr.io" = true →
      goContains (hostOf s) "amazonaws.com" = false →
      providerFromURL s = "azure") ∧
    (goEnds (hostOf s) "gcr.io" = true →
      goContains (hostOf s) "amazonaws.com" = false →
      goContains (hostOf s) "azurecr.io" = false →
      providerFromURL s = "gcp") ∧
    (goContains (hostOf s) "amazonaws.com" = false →
      goContains (hostOf s) "azurecr.io" = false →
      goContains (hostOf s) "gcr.io" = false →
      providerFromURL s = "generic") ∧
    providerFromURL "oci://123456789.dkr.ecr.us-east-1.amazonaws.com/app" = "aws" ∧
    providerFromURL "oci://myregistry.azurecr.io/app" = "azure" ∧
    providerFromURL "oci://gcr.io/project/app" = "gcp" ∧
    providerFromURL "oci://ghcr.io/org/app" = "generic" := by
  refine ⟨?_, ?_, ?_, ?_, by decide, by decide, by decide, by decide⟩
  · intro h
    have hc := chContains_of_chEnds _ _ h
    simp [providerFromURL, goContains, hc]
  · intro h hnaws
    have hc := chContains_of_chEnds _ _ h
    simp [providerFromURL, goContains] at hnaws ⊢
    simp [hnaws, hc]
  · intro h hnaws hnaz
    have hc := chContains_of_chEnds _ _ h
    simp [providerFromURL, goContains] at hnaws hnaz ⊢
    simp [hnaws, hnaz, hc]
  · intro h1 h2 h3
    simp [providerFromURL, goContains] at h1 h2 h3 ⊢
    simp [h1, h2, h3]

/-- Witness for `fluxer_c6_provider_contains` at the Azure example. -/
theorem fluxer_c6_witness :
    providerFromURL "oci://myregistry.azurecr.io/app" = "azure" :=
  (fluxer_c6_provider_contains "oci://myregistry.azurecr.io/app").2.1
    (by decide) (by decide)

/-! ### Claim C7 — naming policy -/

/-- Claim C7: the naming policy is deterministic — the child names depend
only on the parent name and the resolved repository status string — and
the four names are: parent name joined with `chart` by `-` for both the
image source and the version selector, the parent's own name for the
release, and the resolved repository string with its `oci://` prefix
removed and every `.` and `/` replaced by `-` for the chart source. -/
theorem fluxer_c7_naming (a b : FluxApp)
    (hn : a.name = b.name)
    (hr : a.status.chart.repository = b.status.chart.repository) :
    ImageRepositoryName a = ImageRepositoryName b ∧
    ImagePolicyName a = ImagePolicyName b ∧
    HelmRepositoryName a = HelmRepositoryName b ∧
    HelmReleaseName a = HelmReleaseName b ∧
    ImageRepositoryName a = a.name ++ "-" ++ "chart" ∧
    ImagePolicyName a = ImageRepositoryName a ∧
    HelmReleaseName a = a.name ∧
    HelmRepositoryName a =
      sanitizeClaim (goTrim a.status.chart.repository "oci://") := by
  refine ⟨?_, ?_, ?_, ?_, rfl, rfl, rfl, ?_⟩
  · simp [ImageRepositoryName, hn]
  · simp [ImagePolicyName, ImageRepositoryName, hn]
  · simp [HelmRepositoryName, hr]
  · simp [HelmReleaseName, hn]
  · simp only [HelmRepositoryName, goReplacer, sanitizeClaim]
    congr 1
    exact List.map_congr_left (fun c _ => replacerChar_dot_slash c)

/-- Witness for `fluxer_c7_naming` at two concrete equal-input parents. -/
theorem fluxer_c7_witness :
    ImageRepositoryName c7AppA = "demo-chart" ∧
    HelmRepositoryName c7AppA = HelmRepositoryName c7AppB := by
  have h := fluxer_c7_naming c7AppA c7AppB rfl rfl
  exact ⟨by decide, h.2.2.1⟩

/-! ### Claim C2 — create vs. baseline-relative patch -/

/-- Claim C2: for every managed-resource record, `Commit`
(`ResourceManager.Update`) performs a create exactly when no patch
baseline was recorded (the object was not found at fetch time), and
otherwise performs a merge patch whose baseline is the object exactly as
it stood at fetch time — unchanged by whatever mutation `mut` the
pipeline applied to the record's object afterwards. -/
theorem fluxer_c2_commit (st : Store) (app : FluxApp) (kind nm : String)
    (mutf : Obj → Obj)
    (hk : childName app kind = some nm) :
    (storeGet st (kind, app.ns, nm) = none →
      ∃ mr t, RMGet st app kind = (.ok mr, t) ∧ mr.patch = none ∧
        RMUpdate { object := mutf mr.object, patch := mr.patch } =
          .createObj (mutf mr.object)) ∧
    (∀ o, storeGet st (kind, app.ns, nm) = some o →
      ∃ mr t, RMGet st app kind = (.ok mr, t) ∧ mr.patch = some o ∧
        RMUpdate { object := mutf mr.object, patch := mr.patch } =
          .patchObj (mutf mr.object) o) := by
  constructor
  · intro h
    refine ⟨freshMR app kind nm, [.lookup kind nm], ?_, rfl, rfl⟩
    simp [RMGet, hk, h]
  · intro o h
    refine ⟨{ object := o, patch := some o }, [.lookup kind nm], ?_, rfl, rfl⟩
    simp [RMGet, hk, h]

/-- Witness for `fluxer_c2_commit`: a pre-existing object is committed by
a patch whose baseline is the fetch-time snapshot, across a mutation. -/
theorem fluxer_c2_witness :
    ∃ mr t, RMGet oneObjStore appFin "HelmRelease" = (.ok mr, t) ∧
      mr.patch = some storedObj ∧
      RMUpdate { object := { mr.object with payload := "mutated" },
                 patch := mr.patch } =
        .patchObj { mr.object with payload := "mutated" } storedObj :=
  (fluxer_c2_commit oneObjStore appFin "HelmRelease" "demo"
      (fun o => { o with payload := "mutated" }) (by decide)).2
    storedObj (by decide)

/-! ### Claim C8 — ownership set before first commit -/

/-- Claim C8: whenever `Get` finds the child absent, the record it
returns already carries the parent as controller owner (and the derived
name and the parent's namespace), with no patch baseline — so the first
commit of a newly-initialised record creates an owned object. -/
theorem fluxer_c8_owner (st : Store) (app : FluxApp) (kind nm : String)
    (hk : childName app kind = some nm)
    (habs : storeGet st (kind, app.ns, nm) = none) :
    ∃ mr, RMGet st app kind = (.ok mr, [.lookup kind nm]) ∧
      mr.object.controllerOwner = some app.name ∧ mr.patch = none ∧
      mr.object.name = nm ∧ mr.object.ns = app.ns := by
  refine ⟨freshMR app kind nm, ?_, rfl, rfl, rfl, rfl⟩
  simp [RMGet, hk, habs]

/-- Witness for `fluxer_c8_owner` on an empty store. -/
theorem fluxer_c8_witness :
    ∃ mr, RMGet [] appFin "ImageRepository" =
        (.ok mr, [.lookup "ImageRepository" "demo-chart"]) ∧
      mr.object.controllerOwner = some "demo" ∧ mr.patch = none ∧
      mr.object.name = "demo-chart" ∧ mr.object.ns = "default" :=
  fluxer_c8_owner [] appFin "ImageRepository" "demo-chart"
    (by decide) (by decide)

/-! ### Claim C10 — unsupported kinds rejected before lookup -/

/-- Claim C10: for every kind other than the four supported child kinds,
`ResourceManager.Get` returns no record and an "unsupported kind" error,
and its operation trace is empty — no store lookup happens. -/
theorem fluxer_c10_unsupported (st : Store) (app : FluxApp) (kind : String)
    (h1 : kind ≠ "ImageRepository") (h2 : kind ≠ "ImagePolicy")
    (h3 : kind ≠ "HelmRepository") (h4 : kind ≠ "HelmRelease") :
    RMGet st app kind = (.error ("unsupported kind: " ++ kind), []) := by
  simp [RMGet, childName, h1, h2, h3, h4]

/-- Witness for `fluxer_c10_unsupported` at kind `ConfigMap`. -/
theorem fluxer_c10_witness :
    RMGet oneObjStore appFin "ConfigMap" =
      (.error ("unsupported kind: " ++ "ConfigMap"), []) :=
  fluxer_c10_unsupported oneObjStore appFin "ConfigMap"
    (by decide) (by decide) (by decide) (by decide)

/-! ### Structural lemmas about the handlers -/

/-- The image-repository fetch always performs exactly its lookup. -/
theorem getIR_snd (app : FluxApp) (cl : Cluster) :
    (getImageRepositoryMR app cl).2 =
      .lookup "ImageRepository" (ImageRepositoryName app) := by
  unfold getImageRepositoryMR
  cases h : alookup cl.imageRepos (app.ns, ImageRepositoryName app) <;> simp [h]

/-- The image-policy fetch always performs exactly its lookup. -/
theorem getIP_snd (app : FluxApp) (cl : Cluster) :
    (getImagePolicyMR app cl).2 =
      .lookup "ImagePolicy" (ImagePolicyName app) := by
  unfold getImagePolicyMR
  cases h : alookup cl.imagePolicies (app.ns, ImagePolicyName app) <;> simp [h]

/-- The helm-repository fetch always performs exactly its lookup. -/
theorem getHRepo_snd (app : FluxApp) (cl : Cluster) :
    (getHelmRepositoryMR app cl).2 =
      .lookup "HelmRepository" (HelmRepositoryName app) := by
  unfold getHelmRepositoryMR
  cases h : alookup cl.helmRepos (app.ns, HelmRepositoryName app) <;> simp [h]

/-- The helm-release fetch always performs exactly its lookup. -/
theorem getHRel_snd (app : FluxApp) (cl : Cluster) :
    (getHelmReleaseMR app cl).2 =
      .lookup "HelmRelease" (HelmReleaseName app) := by
  unfold getHelmReleaseMR
  cases h : alookup cl.helmReleases (app.ns, HelmReleaseName app) <;> simp [h]

/-- The image-repository commit op is tagged with its kind. -/
theorem updateIR_snd_kind (cl : Cluster) (mr : MRes ImageRepository) :
    opKindIs "ImageRepository" (updateImageRepositoryMR cl mr).2 = true := by
  unfold updateImageRepositoryMR
  cases mr.patch <;> simp [opKindIs]

/-- The image-policy commit op is tagged with its kind. -/
theorem updateIP_snd_kind (cl : Cluster) (mr : MRes ImagePolicy) :
    opKindIs "ImagePolicy" (updateImagePolicyMR cl mr).2 = true := by
  unfold updateImagePolicyMR
  cases mr.patch <;> simp [opKindIs]

/-- The helm-repository commit op is tagged with its kind. -/
theorem updateHRepo_snd_kind (cl : Cluster) (mr : MRes HelmRepository) :
    opKindIs "HelmRepository" (updateHelmRepositoryMR cl mr).2 = true := by
  unfold updateHelmRepositoryMR
  cases mr.patch <;> simp [opKindIs]

/-- The helm-release commit op is tagged with its kind. -/
theorem updateHRel_snd_kind (cl : Cluster) (mr : MRes HelmRelease) :
    opKindIs "HelmRelease" (updateHelmReleaseMR cl mr).2 = true := by
  unfold updateHelmReleaseMR
  cases mr.patch <;> simp [opKindIs]

/-- An operation tagged with one kind is not tagged with another. -/
theorem opKindIs_ne (op : StoreOp) (k k2 : String)
    (h : opKindIs k op = true) (hne : k ≠ k2) : opKindIs k2 op = false := by
  cases op with
  | lookup k3 n => simp [opKindIs] at h ⊢; subst h; exact fun hc => hne hc
  | create k3 n => simp [opKindIs] at h ⊢; subst h; exact fun hc => hne hc
  | patchCommit k3 n => simp [opKindIs] at h ⊢; subst h; exact fun hc => hne hc
  | appUpdate => simp [opKindIs] at h
  | appStatusPatch => simp [opKindIs] at h

/-- Every operation of the image-repository stage is tagged
`ImageRepository`. -/
theorem ops_handleImageRepository (app : FluxApp) (cl : Cluster) :
    ∀ op ∈ (handleImageRepository app cl).2,
      opKindIs "ImageRepository" op = true := by
  intro op hop
  unfold handleImageRepository at hop
  revert hop
  split
  · intro hop
    simp only [List.mem_cons, List.not_mem_nil, or_false] at hop
    rcases hop with h | h <;> subst h
    · rw [getIR_snd]; simp [opKindIs]
    · exact updateIR_snd_kind cl _
  · intro hop
    simp only [List.mem_cons, List.not_mem_nil, or_false] at hop
    subst hop
    rw [getIR_snd]; simp [opKindIs]

/-- Every operation of the image-policy stage is tagged `ImagePolicy`. -/
theorem ops_handleImagePolicy (app : FluxApp) (cl : Cluster) :
    ∀ op ∈ (handleImagePolicy app cl).2, opKindIs "ImagePolicy" op = true := by
  intro op hop
  unfold handleImagePolicy at hop
  dsimp only at hop
  revert hop
  split
  · intro hop
    simp only [List.mem_cons, List.not_mem_nil, or_false] at hop
    rcases hop with h | h <;> subst h
    · rw [getIP_snd]; simp [opKindIs]
    · exact updateIP_snd_kind cl _
  · split
    · intro hop
      simp only [List.mem_cons, List.not_mem_nil, or_false] at hop
      rcases hop with h | h <;> subst h
      · rw [getIP_snd]; simp [opKindIs]
      · exact updateIP_snd_kind cl _
    · intro hop
      simp only [List.mem_cons, List.not_mem_nil, or_false] at hop
      subst hop
      rw [getIP_snd]; simp [opKindIs]

/-- The chart-source stage never fails, never touches the parent, and its
trace is its lookup followed by one `HelmRepository`-tagged commit. -/
theorem handleHelmRepository_shape (app : FluxApp) (cl : Cluster) :
    ∃ cl2 op1, handleHelmRepository app cl =
      (.ok (app, cl2),
        [.lookup "HelmRepository" (HelmRepositoryName app), op1]) ∧
      opKindIs "HelmRepository" op1 = true := by
  unfold handleHelmRepository
  dsimp only
  rw [getHRepo_snd]
  refine ⟨_, _, rfl, ?_⟩
  exact updateHRepo_snd_kind cl _

/-- While repository, name or version is unresolved, the release stage
returns the requeue sentinel without touching the store. -/
theorem handleHelmRelease_requeue (app : FluxApp) (cl : Cluster)
    (h : app.status.chart.repository = "" ∨ app.status.chart.name = "" ∨
      app.status.chart.version = "") :
    handleHelmRelease app cl = (.error .requeue, []) := by
  unfold handleHelmRelease
  rw [if_pos h]

/-- The image-repository stage's trace starts with its lookup. -/
theorem handleImageRepository_head (app : FluxApp) (cl : Cluster) :
    ∃ rest, (handleImageRepository app cl).2 =
      .lookup "ImageRepository" (ImageRepositoryName app) :: rest := by
  unfold handleImageRepository
  split
  · exact ⟨_, by rw [getIR_snd]⟩
  · exact ⟨[], by rw [getIR_snd]⟩

/-! ### Condition lemmas -/

/-- Setting a condition makes it findable by its type. -/
theorem findCondition_setCondition (l : List GoCondition) (c : GoCondition) :
    findCondition (setCondition l c) c.ctype = some c := by
  induction l with
  | nil => simp [findCondition, setCondition, List.find?]
  | cons x xs ih =>
    unfold setCondition
    by_cases h : x.ctype = c.ctype
    · simp [findCondition, List.find?, h]
    · simp only [if_neg h]
      unfold findCondition at ih ⊢
      simp only [List.find?]
      have hx : (decide (x.ctype = c.ctype)) = false := by simp [h]
      rw [hx]
      exact ih

/-- A found condition has the type it was looked up by. -/
theorem findCondition_type (l : List GoCondition) (t : String) (c : GoCondition)
    (h : findCondition l t = some c) : c.ctype = t := by
  have h2 := List.find?_some h
  simpa using h2

/-! ### Claim C9 — Ready condition after the release stage -/

/-- Claim C9: whenever the release stage runs (the resolution gate
passes), the parent ends up with a `Ready` condition: the one the fetched
release object reports when it has one, else exactly
`False`/`Progressing`; in particular, when no release object exists in
the cluster the fallback is set, and `Ready` is never absent. -/
theorem fluxer_c9_ready_mirror (app : FluxApp) (cl : Cluster)
    (h1 : app.status.chart.repository ≠ "") (h2 : app.status.chart.name ≠ "")
    (h3 : app.status.chart.version ≠ "") :
    ∃ a2 cl2 t, handleHelmRelease app cl = (.ok (a2, cl2), t) ∧
      findCondition a2.status.conditions "Ready" =
        some (match findCondition
            (getHelmReleaseMR app cl).1.object.status.conditions "Ready" with
          | some c => c
          | none => readyFallback) ∧
      (alookup cl.helmReleases (app.ns, HelmReleaseName app) = none →
        findCondition a2.status.conditions "Ready" = some readyFallback) := by
  have hgate : ¬(app.status.chart.repository = "" ∨ app.status.chart.name = "" ∨
      app.status.chart.version = "") := by
    push_neg
    exact ⟨h1, h2, h3⟩
  unfold handleHelmRelease
  rw [if_neg hgate]
  dsimp only
  refine ⟨_, _, _, rfl, ?_, ?_⟩
  · unfold setMirror
    cases hf : findCondition (getHelmReleaseMR app cl).1.object.status.conditions
        "Ready" with
    | some c =>
      have ht := findCondition_type _ _ _ hf
      rw [← ht]
      exact findCondition_setCondition _ c
    | none =>
      have := findCondition_setCondition app.status.conditions readyFallback
      exact this
  · intro habs
    have hobj : (getHelmReleaseMR app cl).1.object.status.conditions = [] := by
      unfold getHelmReleaseMR
      dsimp only
      rw [habs]
      rfl
    unfold setMirror
    rw [hobj]
    have hnone : findCondition ([] : List GoCondition) "Ready" = none := rfl
    rw [hnone]
    exact findCondition_setCondition app.status.conditions readyFallback

/-- Witness for `fluxer_c9_ready_mirror`: a fully resolved parent against
an empty cluster gets the explicit fallback `Ready` condition. -/
theorem fluxer_c9_witness :
    ∃ a2 cl2 t,
      handleHelmRelease appResolved Cluster.empty = (.ok (a2, cl2), t) ∧
      findCondition a2.status.conditions "Ready" =
        some (match findCondition
            (getHelmReleaseMR appResolved Cluster.empty).1.object.status.conditions
            "Ready" with
          | some c => c
          | none => readyFallback) ∧
      (alookup Cluster.empty.helmReleases
          (appResolved.ns, HelmReleaseName appResolved) = none →
        findCondition a2.status.conditions "Ready" = some readyFallback) :=
  fluxer_c9_ready_mirror appResolved Cluster.empty
    (by decide) (by decide) (by decide)

/-! ### Parent-metadata preservation through the chain -/

/-- The image-repository stage only ever touches the parent's status. -/
theorem handleImageRepository_meta (a : FluxApp) (c : Cluster) (a2 : FluxApp)
    (c2 : Cluster) (t : List StoreOp)
    (h : handleImageRepository a c = (.ok (a2, c2), t)) :
    a2.name = a.name ∧ a2.ns = a.ns ∧ a2.finalizers = a.finalizers ∧
    a2.deletionTimestampSet = a.deletionTimestampSet ∧ a2.spec = a.spec := by
  unfold handleImageRepository at h
  revert h
  dsimp only
  split
  · intro h
    simp only [Prod.mk.injEq, Except.ok.injEq] at h
    obtain ⟨⟨ha, -⟩, -⟩ := h
    subst ha
    refine ⟨?_, ?_, ?_, ?_, ?_⟩ <;> (split <;> simp [setResolvedRepo])
  · intro h
    simp at h

/-- The image-policy stage only ever touches the parent's status. -/
theorem handleImagePolicy_meta (a : FluxApp) (c : Cluster) (a2 : FluxApp)
    (c2 : Cluster) (t : List StoreOp)
    (h : handleImagePolicy a c = (.ok (a2, c2), t)) :
    a2.name = a.name ∧ a2.ns = a.ns ∧ a2.finalizers = a.finalizers ∧
    a2.deletionTimestampSet = a.deletionTimestampSet ∧ a2.spec = a.spec := by
  unfold handleImagePolicy at h
  revert h
  dsimp only
  split
  · intro h
    simp only [Prod.mk.injEq, Except.ok.injEq] at h
    obtain ⟨⟨ha, -⟩, -⟩ := h
    subst ha
    exact ⟨rfl, rfl, rfl, rfl, rfl⟩
  · split
    · intro h
      simp only [Prod.mk.injEq, Except.ok.injEq] at h
      obtain ⟨⟨ha, -⟩, -⟩ := h
      subst ha
      exact ⟨rfl, rfl, rfl, rfl, rfl⟩
    · intro h
      simp at h

/-- The chart-source stage leaves the parent untouched. -/
theorem handleHelmRepository_meta (a : FluxApp) (c : Cluster) (a2 : FluxApp)
    (c2 : Cluster) (t : List StoreOp)
    (h : handleHelmRepository a c = (.ok (a2, c2), t)) : a2 = a := by
  obtain ⟨cl2, op1, hsh, -⟩ := handleHelmRepository_shape a c
  rw [hsh] at h
  simp only [Prod.mk.injEq, Except.ok.injEq] at h
  obtain ⟨⟨ha, -⟩, -⟩ := h
  exact ha.symm

/-- The release stage only ever touches the parent's status. -/
theorem handleHelmRelease_meta (a : FluxApp) (c : Cluster) (a2 : FluxApp)
    (c2 : Cluster) (t : List StoreOp)
    (h : handleHelmRelease a c = (.ok (a2, c2), t)) :
    a2.name = a.name ∧ a2.ns = a.ns ∧ a2.finalizers = a.finalizers ∧
    a2.deletionTimestampSet = a.deletionTimestampSet ∧ a2.spec = a.spec := by
  unfold handleHelmRelease at h
  revert h
  split
  · intro h
    simp at h
  · intro h
    dsimp only at h
    simp only [Prod.mk.injEq, Except.ok.injEq] at h
    obtain ⟨⟨ha, -⟩, -⟩ := h
    subst ha
    exact ⟨rfl, rfl, rfl, rfl, rfl⟩

/-- The chain never touches the parent's finalizers. -/
theorem runChain_finalizers (a : FluxApp) (c : Cluster) :
    (runChain a c).2.1.finalizers = a.finalizers := by
  unfold runChain
  split
  · rfl
  case _ a1 c1 t1 heq1 =>
    have m1 := (handleImageRepository_meta a c a1 c1 t1 heq1).2.2.1
    split
    · exact m1
    case _ a2 c2 t2 heq2 =>
      have m2 := (handleImagePolicy_meta a1 c1 a2 c2 t2 heq2).2.2.1
      split
      · exact m2.trans m1
      case _ a3 c3 t3 heq3 =>
        have m3 := handleHelmRepository_meta a2 c2 a3 c3 t3 heq3
        split
        · rw [m3]; exact m2.trans m1
        case _ a4 c4 t4 heq4 =>
          have m4 := (handleHelmRelease_meta a3 c3 a4 c4 t4 heq4).2.2.1
          rw [m4, m3]
          exact m2.trans m1

/-- The chain's trace starts with the image-source stage's trace. -/
theorem runChain_trace_front (a : FluxApp) (c : Cluster) :
    ∃ tt, (runChain a c).2.2.2 = (handleImageRepository a c).2 ++ tt := by
  unfold runChain
  split
  case _ e t heq => exact ⟨[], by rw [heq]; simp⟩
  case _ a1 c1 t1 heq =>
    rw [heq]
    split
    case _ e t heq2 => exact ⟨t, rfl⟩
    case _ a2 c2 t2 heq2 =>
      split
      case _ e t heq3 => exact ⟨t2 ++ t, by simp⟩
      case _ a3 c3 t3 heq3 =>
        split
        case _ e t heq4 => exact ⟨t2 ++ t3 ++ t, by simp⟩
        case _ a4 c4 t4 heq4 => exact ⟨t2 ++ t3 ++ t4, by simp⟩

/-! ### Claim C5 — finalizer registration and chain processing -/

/-- Claim C5, as stated, is false: on an invocation with no deletion
timestamp and no registered finalizer, the engine registers and persists
the finalizer and then continues with chain-stage processing in the same
invocation (the trace shows the parent metadata commit followed by
chain-stage lookups and commits). -/
theorem fluxer_c5_counterexample :
    appNoFin.finalizers = [] ∧ appNoFin.deletionTimestampSet = false ∧
    (Reconcile appNoFin Cluster.empty).app.finalizers = [finalizerName] ∧
    (Reconcile appNoFin Cluster.empty).trace.head? = some .appUpdate ∧
    (Reconcile appNoFin Cluster.empty).trace.any
      (opKindIs "ImageRepository") = true ∧
    (Reconcile appNoFin Cluster.empty).trace.any
      (opKindIs "HelmRepository") = true := by
  decide

/-- Claim C5 (amended): on an invocation where the parent has no deletion
timestamp and its finalizer is not yet registered, the engine registers
the finalizer and persists it through its own commit — the first store
operation of the invocation, separate from every chain commit — and then
proceeds with chain-stage processing in the same invocation rather than
deferring it. -/
theorem fluxer_c5_finalizer_then_chain (app : FluxApp) (cl : Cluster)
    (hdel : app.deletionTimestampSet = false)
    (hfin : finalizerName ∉ app.finalizers) :
    (Reconcile app cl).app.finalizers = app.finalizers ++ [finalizerName] ∧
    ∃ rest, (Reconcile app cl).trace = .appUpdate :: rest ∧
      .lookup "ImageRepository" (ImageRepositoryName app) ∈ rest := by
  have hfz := runChain_finalizers
    { app with finalizers := app.finalizers ++ [finalizerName] } cl
  obtain ⟨tt, htt⟩ := runChain_trace_front
    { app with finalizers := app.finalizers ++ [finalizerName] } cl
  obtain ⟨rest2, hh⟩ := handleImageRepository_head
    { app with finalizers := app.finalizers ++ [finalizerName] } cl
  rw [hh] at htt
  unfold Reconcile
  rw [if_neg (show ¬(app.deletionTimestampSet = true) from by simp [hdel])]
  simp only [hfin, if_false, ite_false]
  rcases hrc : runChain
      { app with finalizers := app.finalizers ++ [finalizerName] } cl
    with ⟨e, a4, c4, t⟩
  rw [hrc] at hfz htt
  dsimp only at hfz htt
  cases e with
  | none =>
    refine ⟨hfz, t ++ [.appStatusPatch], by simp, ?_⟩
    rw [htt]
    simp [ImageRepositoryName]
  | some e2 =>
    cases e2 with
    | requeue =>
      refine ⟨hfz, t ++ [.appStatusPatch], by simp, ?_⟩
      rw [htt]
      simp [ImageRepositoryName]
    | invalidChartURL u =>
      refine ⟨hfz, t ++ [.appStatusPatch], by simp, ?_⟩
      rw [htt]
      simp [ImageRepositoryName]
    | invalidImageRef r =>
      refine ⟨hfz, t ++ [.appStatusPatch], by simp, ?_⟩
      rw [htt]
      simp [ImageRepositoryName]

/-- Witness for `fluxer_c5_finalizer_then_chain` at the concrete
unregistered parent. -/
theorem fluxer_c5_witness :
    (Reconcile appNoFin Cluster.empty).app.finalizers = [] ++ [finalizerName] ∧
    ∃ rest, (Reconcile appNoFin Cluster.empty).trace = .appUpdate :: rest ∧
      .lookup "ImageRepository" (ImageRepositoryName appNoFin) ∈ rest := by
  have h := fluxer_c5_finalizer_then_chain appNoFin Cluster.empty
    (by decide) (by decide)
  exact h

/-! ### Claim C3 — where the resolved repository/name come from -/

/-- Claim C3, as stated, is false: the image-source stage sets the
parent's resolved repository and name even though the child object does
not exist and so reports nothing — the values are derived from the
parent's own spec URL, and they are written before the commit. -/
theorem fluxer_c3_counterexample :
    alookup Cluster.empty.imageRepos
      (appFin.ns, ImageRepositoryName appFin) = none ∧
    appFin.status.chart.repository = "" ∧ appFin.status.chart.name = "" ∧
    ((handleImageRepository appFin Cluster.empty).1.toOption.map
      (fun p => p.1.status.chart.repository)) = some "oci://ghcr.io/org" ∧
    ((handleImageRepository appFin Cluster.empty).1.toOption.map
      (fun p => p.1.status.chart.name)) = some "app" := by
  decide

/-- Claim C3 (amended): in the image-source stage the parent's
resolved-repository and resolved-name fields are computed from the
parent's own spec URL — the image string after the scheme separator —
regardless of the child's observed state: whenever that string is
non-empty they are set (before the commit) to `oci://` + `path.Dir` of it
and `path.Base` of it, and they are left unchanged only when that string
is empty. -/
theorem fluxer_c3_status_from_spec (app : FluxApp) (cl : Cluster)
    (scheme image : String)
    (hs : goSplit app.spec.chart.repository "://" = [scheme, image]) :
    ∃ cl2 t, handleImageRepository app cl =
      (.ok ((if image = "" then app else setResolvedRepo app image), cl2), t) := by
  unfold handleImageRepository
  dsimp only
  rw [hs]
  dsimp only
  by_cases hi : image = ""
  · simp only [hi, ne_eq, not_true_eq_false, if_false, ite_false, if_true,
      ite_true]
    exact ⟨_, _, rfl⟩
  · simp only [hi, ne_eq, not_false_eq_true, if_false, ite_false, if_true,
      ite_true]
    exact ⟨_, _, rfl⟩

/-- Witness for `fluxer_c3_status_from_spec` at the concrete parent. -/
theorem fluxer_c3_witness :
    ∃ cl2 t, handleImageRepository appFin Cluster.empty =
      (.ok ((if "ghcr.io/org/app" = "" then appFin
             else setResolvedRepo appFin "ghcr.io/org/app"), cl2), t) :=
  fluxer_c3_status_from_spec appFin Cluster.empty "oci" "ghcr.io/org/app"
    (by decide)

/-! ### Claim C1 — the resolution gate -/

/-- Claim C1, as stated, is false: with the resolved version still empty
the invocation does return a requeue with a nil error, but the
chart-source (HelmRepository) stage IS attempted — and committed — in
that same invocation; only the release stage is gated. -/
theorem fluxer_c1_counterexample :
    (Reconcile appFin Cluster.empty).requeue = true ∧
    (Reconcile appFin Cluster.empty).err = none ∧
    (Reconcile appFin Cluster.empty).app.status.chart.version = "" ∧
    .create "HelmRepository" "ghcr-io-org" ∈
      (Reconcile appFin Cluster.empty).trace := by
  decide

/-- Claim C1 (amended): if the parent's resolved repository, name or
version is still empty after the image-source and version-selector
stages, the release (HelmRelease) stage is not attempted — no store
operation of that kind appears — and the invocation returns a requeue
signal with a nil error; the chart-source (HelmRepository) stage,
however, is still attempted in the same invocation. -/
theorem fluxer_c1_gate (app : FluxApp) (cl : Cluster) (a1 : FluxApp)
    (c1 : Cluster) (t1 : List StoreOp) (a2 : FluxApp) (c2 : Cluster)
    (t2 : List StoreOp)
    (hdel : app.deletionTimestampSet = false)
    (hfin : finalizerName ∈ app.finalizers)
    (h1 : handleImageRepository app cl = (.ok (a1, c1), t1))
    (h2 : handleImagePolicy a1 c1 = (.ok (a2, c2), t2))
    (hgate : a2.status.chart.repository = "" ∨ a2.status.chart.name = "" ∨
      a2.status.chart.version = "") :
    (Reconcile app cl).requeue = true ∧ (Reconcile app cl).err = none ∧
    (∀ op ∈ (Reconcile app cl).trace, opKindIs "HelmRelease" op = false) ∧
    .lookup "HelmRepository" (HelmRepositoryName a2) ∈
      (Reconcile app cl).trace := by
  obtain ⟨c3, op1, h3, hop1⟩ := handleHelmRepository_shape a2 c2
  have h4 := handleHelmRelease_requeue a2 c3 hgate
  have hops1 : ∀ op ∈ t1, opKindIs "ImageRepository" op = true := by
    have h5 := ops_handleImageRepository app cl
    rw [h1] at h5
    exact h5
  have hops2 : ∀ op ∈ t2, opKindIs "ImagePolicy" op = true := by
    have h5 := ops_handleImagePolicy a1 c1
    rw [h2] at h5
    exact h5
  have hrc : runChain app cl =
      (some .requeue, a2, c3,
        t1 ++ t2 ++
          [.lookup "HelmRepository" (HelmRepositoryName a2), op1] ++ []) := by
    unfold runChain
    rw [h1]
    dsimp only
    rw [h2]
    dsimp only
    rw [h3]
    dsimp only
    rw [h4]
  unfold Reconcile
  rw [if_neg (show ¬(app.deletionTimestampSet = true) from by simp [hdel])]
  simp only [hfin, if_true, ite_true]
  rw [hrc]
  dsimp only
  refine ⟨rfl, rfl, ?_, ?_⟩
  · intro op hop
    simp only [List.mem_append, List.mem_cons, List.not_mem_nil, or_false,
      List.mem_singleton, List.nil_append, List.append_nil] at hop
    rcases hop with ((hm | hm) | (hm | hm)) | hm
    · exact opKindIs_ne op "ImageRepository" "HelmRelease" (hops1 op hm)
        (by decide)
    · exact opKindIs_ne op "ImagePolicy" "HelmRelease" (hops2 op hm)
        (by decide)
    · rw [hm]
      simp [opKindIs]
    · rw [hm]
      exact opKindIs_ne op1 "HelmRepository" "HelmRelease" hop1 (by decide)
    · rw [hm]
      rfl
  · simp

/-- Witness for `fluxer_c1_gate`: the unresolved-version parent against
an empty cluster requeues without error and without any release-stage
operation, while the chart-source lookup does appear. -/
theorem fluxer_c1_witness :
    (Reconcile appFin Cluster.empty).requeue = true ∧
    (Reconcile appFin Cluster.empty).err = none ∧
    (∀ op ∈ (Reconcile appFin Cluster.empty).trace,
      opKindIs "HelmRelease" op = false) ∧
    .lookup "HelmRepository" (HelmRepositoryName (setResolvedRepo appFin "ghcr.io/org/app")) ∈
      (Reconcile appFin Cluster.empty).trace := by
  have h := fluxer_c1_gate appFin Cluster.empty _ _ _ _ _ _ rfl (by decide)
    rfl rfl (Or.inr (Or.inr rfl))
  exact h

/-! ### Claim C4 — version-selector parsing -/

/-- Claim C4: when the version-selector child reports a non-empty
resolved reference, a `repo:tag` shape (exactly two `:`-segments) stores
the tag as the parent's resolved version, while any other segment count
makes the invocation fail with the hard invalid-image-reference error —
not the requeue signal — and neither the chart-source nor the release
stage performs any store operation. -/
theorem fluxer_c4_version_split (app : FluxApp) (cl : Cluster) (a1 : FluxApp)
    (c1 : Cluster) (t1 : List StoreOp) (pol : ImagePolicy) (ref : String)
    (hdel : app.deletionTimestampSet = false)
    (hfin : finalizerName ∈ app.finalizers)
    (h1 : handleImageRepository app cl = (.ok (a1, c1), t1))
    (hp : alookup c1.imagePolicies (a1.ns, ImagePolicyName a1) = some pol)
    (href : pol.status.latestImage = ref)
    (hne : ref ≠ "") :
    (∀ s v, goSplit ref ":" = [s, v] →
      ∃ c2 t2, handleImagePolicy a1 c1 =
        (.ok ({ a1 with status.chart.version := v }, c2), t2)) ∧
    ((goSplit ref ":").length ≠ 2 →
      (Reconcile app cl).err = some (.invalidImageRef ref) ∧
      (Reconcile app cl).requeue = false ∧
      ∀ op ∈ (Reconcile app cl).trace,
        opKindIs "HelmRepository" op = false ∧
          opKindIs "HelmRelease" op = false) := by
  have hg : getImagePolicyMR a1 c1 =
      ({ object := pol, patch := some pol },
        .lookup "ImagePolicy" (ImagePolicyName a1)) := by
    unfold getImagePolicyMR
    dsimp only
    rw [hp]
  have hops1 : ∀ op ∈ t1, opKindIs "ImageRepository" op = true := by
    have h5 := ops_handleImageRepository app cl
    rw [h1] at h5
    exact h5
  constructor
  · intro s v hsv
    unfold handleImagePolicy
    rw [hg]
    dsimp only
    rw [href, if_neg hne, hsv]
    dsimp only
    exact ⟨_, _, rfl⟩
  · intro hlen
    have hpol : handleImagePolicy a1 c1 =
        (.error (.invalidImageRef ref),
          [.lookup "ImagePolicy" (ImagePolicyName a1)]) := by
      unfold handleImagePolicy
      rw [hg]
      dsimp only
      rw [href, if_neg hne]
      rcases l : goSplit ref ":" with _ | ⟨s, _ | ⟨v, _ | ⟨w, r⟩⟩⟩
      · rfl
      · rfl
      · rw [l] at hlen
        simp at hlen
      · rfl
    have hrc : runChain app cl =
        (some (.invalidImageRef ref), a1, c1,
          t1 ++ [.lookup "ImagePolicy" (ImagePolicyName a1)]) := by
      unfold runChain
      rw [h1]
      dsimp only
      rw [hpol]
    unfold Reconcile
    rw [if_neg (show ¬(app.deletionTimestampSet = true) from by simp [hdel])]
    simp only [hfin, if_true, ite_true]
    rw [hrc]
    dsimp only
    refine ⟨rfl, rfl, ?_⟩
    intro op hop
    simp only [List.mem_append, List.mem_cons, List.not_mem_nil, or_false,
      List.mem_singleton, List.nil_append] at hop
    rcases hop with (hm | hm) | hm
    · exact ⟨opKindIs_ne op "ImageRepository" "HelmRepository" (hops1 op hm)
          (by decide),
        opKindIs_ne op "ImageRepository" "HelmRelease" (hops1 op hm)
          (by decide)⟩
    · rw [hm]
      exact ⟨by simp [opKindIs], by simp [opKindIs]⟩
    · rw [hm]
      exact ⟨rfl, rfl⟩

/-- Witness for `fluxer_c4_version_split`: a policy reporting `badref`
(no `:` segment) makes the invocation fail hard with no chart-source or
release operation. -/
theorem fluxer_c4_witness :
    (Reconcile appFin badPolicyCluster).err =
      some (.invalidImageRef "badref") ∧
    (Reconcile appFin badPolicyCluster).requeue = false ∧
    ∀ op ∈ (Reconcile appFin badPolicyCluster).trace,
      opKindIs "HelmRepository" op = false ∧
        opKindIs "HelmRelease" op = false := by
  have h := fluxer_c4_version_split appFin badPolicyCluster _ _ _ badPolicy
    "badref" rfl (by decide) rfl rfl rfl (by decide)
  exact h.2 (by decide)

end Fluxer
